import Mathlib

set_option linter.unusedVariables false

/-!
Shallow embedding of the `ultimate-internet-test` repository: the concurrent
probe orchestrator (`main.go`), the ICMP ping probe (`modules/checkVPN.go`,
`PingCheck`), and the result store (`utils/results.go`: `LoadResults`,
`SaveResults`, `AppendResult`) over the data model of `utils/types.go`.

Machine integers are modelled as `Int` (Go `int`/`int64` values here are tiny,
far from overflow), Go `float64` payload fields as `Rat` (they are carried
data, never computed on; Go's JSON encoding round-trips finite floats exactly
and rejects NaN/Inf at marshal time, so `Rat` is a faithful value model),
`time.Time` as `Nat` nanoseconds since epoch with `0` as Go's zero time.
-/

namespace UIT

/-! ## Data model (utils/types.go) -/

/-- Model of `utils.HTTPTest`: result of one HTTP probe.  Field tags in the source:
`url`, `status`, `proto,omitempty`, `tls_version,omitempty`,
`cipher_suite,omitempty`, `server_name,omitempty`,
`response_length,omitempty`, `error,omitempty`. -/
structure HTTPTest where
  url : String
  status : String
  proto : String
  tlsVersion : String
  cipherSuite : String
  serverName : String
  responseLength : Int
  error : String
deriving Repr, DecidableEq

/-- The Go zero value of `utils.HTTPTest`. -/
def HTTPTest.empty : HTTPTest := ⟨"", "", "", "", "", "", 0, ""⟩

/-- Model of `utils.SpeedTest`: result of one speed probe.  Tags: `url`,
`download_mbps`, `elapsed_time`, `bytes_received`, `error,omitempty`. -/
structure SpeedTest where
  url : String
  downloadMbps : Rat
  elapsedTime : Int
  bytesReceived : Int
  error : String
deriving Repr, DecidableEq

/-- The Go zero value of `utils.SpeedTest`. -/
def SpeedTest.empty : SpeedTest := ⟨"", 0, 0, 0, ""⟩

/-- Model of `utils.VPNTest`: result of the VPN probe.  Tags: `status`,
`error,omitempty`. -/
structure VPNTest where
  status : String
  error : String
deriving Repr, DecidableEq

/-- The Go zero value of `utils.VPNTest`. -/
def VPNTest.empty : VPNTest := ⟨"", ""⟩

/-- Model of `utils.PingTest`: result of the ping probe.  Tags: `url,omitempty`,
`transmitted_packets,omitempty`, `received_packets,omitempty`,
`loss_packets,omitempty`, `error,omitempty`. -/
structure PingTest where
  url : String
  transmitted : Int
  received : Int
  loss : Rat
  error : String
deriving Repr, DecidableEq

/-- The Go zero value of `utils.PingTest`. -/
def PingTest.empty : PingTest := ⟨"", 0, 0, 0, ""⟩

/-- Model of `utils.TestResults`: the aggregate report.  Tags:
`http_tests,omitempty`, `speed_tests,omitempty`, `vpn_test,omitempty`,
`ping_test,omitempty`, `timestamp`.  Go nil slices and empty slices are both
modelled as `[]`. -/
structure TestResults where
  httpTests : List HTTPTest
  speedTests : List SpeedTest
  vpnTest : VPNTest
  pingTest : PingTest
  timestamp : Nat
deriving Repr, DecidableEq

/-- The Go zero value of `utils.TestResults`. -/
def TestResults.empty : TestResults := ⟨[], [], VPNTest.empty, PingTest.empty, 0⟩

/-! ## JSON document model

The serialized report is modelled as a JSON value tree; the encoder below
mirrors Go's `encoding/json` applied to the struct tags of `utils/types.go`.
Faithfulness notes:
* `omitempty` omits empty strings, zero numbers and empty slices;
* `omitempty` has NO effect on struct-typed fields (`VPNTest`, `PingTest`
  inside `TestResults`): `encoding/json` never treats a struct value as
  empty, so those fields are always emitted;
* the decoder leaves a missing field at the Go zero value, ignores unknown
  fields, and fails on a type mismatch, as `json.Unmarshal` does;
* `time.Time` serializes injectively (RFC 3339), modelled as a number. -/
inductive Json where
  | str : String → Json
  | num : Rat → Json
  | arr : List Json → Json
  | obj : List (String × Json) → Json

/-- Encoder chunk for a string field without `omitempty`. -/
def strField (k v : String) : List (String × Json) := [(k, .str v)]

/-- Encoder chunk for a string field with `omitempty`. -/
def omitStr (k v : String) : List (String × Json) :=
  if v = "" then [] else [(k, .str v)]

/-- Encoder chunk for an integer field without `omitempty`. -/
def intField (k : String) (v : Int) : List (String × Json) := [(k, .num (v : Rat))]

/-- Encoder chunk for an integer field with `omitempty`. -/
def omitInt (k : String) (v : Int) : List (String × Json) :=
  if v = 0 then [] else [(k, .num (v : Rat))]

/-- Encoder chunk for a float field without `omitempty`. -/
def ratField (k : String) (v : Rat) : List (String × Json) := [(k, .num v)]

/-- Encoder chunk for a float field with `omitempty`. -/
def omitRat (k : String) (v : Rat) : List (String × Json) :=
  if v = 0 then [] else [(k, .num v)]

/-- Encoder modelling `json.Marshal` of a `utils.HTTPTest`. -/
def marshalHTTPTest (h : HTTPTest) : Json :=
  .obj (strField "url" h.url ++ strField "status" h.status ++
        omitStr "proto" h.proto ++ omitStr "tls_version" h.tlsVersion ++
        omitStr "cipher_suite" h.cipherSuite ++ omitStr "server_name" h.serverName ++
        omitInt "response_length" h.responseLength ++ omitStr "error" h.error)

/-- Encoder modelling `json.Marshal` of a `utils.SpeedTest`. -/
def marshalSpeedTest (s : SpeedTest) : Json :=
  .obj (strField "url" s.url ++ ratField "download_mbps" s.downloadMbps ++
        intField "elapsed_time" s.elapsedTime ++ intField "bytes_received" s.bytesReceived ++
        omitStr "error" s.error)

/-- Encoder modelling `json.Marshal` of a `utils.VPNTest`. -/
def marshalVPNTest (v : VPNTest) : Json :=
  .obj (strField "status" v.status ++ omitStr "error" v.error)

/-- Encoder modelling `json.Marshal` of a `utils.PingTest`. -/
def marshalPingTest (p : PingTest) : Json :=
  .obj (omitStr "url" p.url ++ omitInt "transmitted_packets" p.transmitted ++
        omitInt "received_packets" p.received ++ omitRat "loss_packets" p.loss ++
        omitStr "error" p.error)

/-- Encoder modelling `json.Marshal` of a `utils.TestResults`.  The slice fields honour
`omitempty`; `vpn_test` and `ping_test` are struct-typed, so `encoding/json`
always emits them despite their `omitempty` tags; `timestamp` is always
emitted. -/
def marshalTestResults (r : TestResults) : Json :=
  .obj ((if r.httpTests = [] then []
         else [("http_tests", .arr (r.httpTests.map marshalHTTPTest))]) ++
        (if r.speedTests = [] then []
         else [("speed_tests", .arr (r.speedTests.map marshalSpeedTest))]) ++
        [("vpn_test", marshalVPNTest r.vpnTest)] ++
        [("ping_test", marshalPingTest r.pingTest)] ++
        [("timestamp", .num (r.timestamp : Rat))])

/-- Decode a string-typed struct field: missing means zero value, a
non-string value is a type error. -/
def decStrVal : Option Json → Option String
  | none => some ""
  | some (.str s) => some s
  | some _ => none

/-- Decode an int-typed struct field: missing means zero, a non-integral
number or non-number is a type error. -/
def decIntVal : Option Json → Option Int
  | none => some (0 : Int)
  | some (.num q) => if q.den = 1 then some q.num else none
  | some _ => none

/-- Decode a float-typed struct field: missing means zero. -/
def decRatVal : Option Json → Option Rat
  | none => some (0 : Rat)
  | some (.num q) => some q
  | some _ => none

/-- Decode the timestamp field (modelled as a natural number). -/
def decNatVal : Option Json → Option Nat
  | none => some (0 : Nat)
  | some (.num q) => if q.den = 1 ∧ 0 ≤ q.num then some q.num.toNat else none
  | some _ => none

/-- Decoder modelling `json.Unmarshal` into a `utils.HTTPTest`. -/
def unmarshalHTTPTest : Json → Option HTTPTest
  | .obj fs => do
    let url ← decStrVal (fs.lookup "url")
    let status ← decStrVal (fs.lookup "status")
    let proto ← decStrVal (fs.lookup "proto")
    let tlsVersion ← decStrVal (fs.lookup "tls_version")
    let cipherSuite ← decStrVal (fs.lookup "cipher_suite")
    let serverName ← decStrVal (fs.lookup "server_name")
    let responseLength ← decIntVal (fs.lookup "response_length")
    let error ← decStrVal (fs.lookup "error")
    pure ⟨url, status, proto, tlsVersion, cipherSuite, serverName, responseLength, error⟩
  | _ => none

/-- Decoder modelling `json.Unmarshal` into a `utils.SpeedTest`. -/
def unmarshalSpeedTest : Json → Option SpeedTest
  | .obj fs => do
    let url ← decStrVal (fs.lookup "url")
    let downloadMbps ← decRatVal (fs.lookup "download_mbps")
    let elapsedTime ← decIntVal (fs.lookup "elapsed_time")
    let bytesReceived ← decIntVal (fs.lookup "bytes_received")
    let error ← decStrVal (fs.lookup "error")
    pure ⟨url, downloadMbps, elapsedTime, bytesReceived, error⟩
  | _ => none

/-- Decoder modelling `json.Unmarshal` into a `utils.VPNTest`. -/
def unmarshalVPNTest : Json → Option VPNTest
  | .obj fs => do
    let status ← decStrVal (fs.lookup "status")
    let error ← decStrVal (fs.lookup "error")
    pure ⟨status, error⟩
  | _ => none

/-- Decoder modelling `json.Unmarshal` into a `utils.PingTest`. -/
def unmarshalPingTest : Json → Option PingTest
  | .obj fs => do
    let url ← decStrVal (fs.lookup "url")
    let transmitted ← decIntVal (fs.lookup "transmitted_packets")
    let received ← decIntVal (fs.lookup "received_packets")
    let loss ← decRatVal (fs.lookup "loss_packets")
    let error ← decStrVal (fs.lookup "error")
    pure ⟨url, transmitted, received, loss, error⟩
  | _ => none

/-- Unmarshal a JSON array elementwise, failing on the first bad element. -/
def unmarshalList (dec : Json → Option α) : List Json → Option (List α)
  | [] => some []
  | j :: js => do
    let x ← dec j
    let xs ← unmarshalList dec js
    pure (x :: xs)

/-- Decoder modelling `json.Unmarshal` into a `utils.TestResults`. -/
def unmarshalTestResults : Json → Option TestResults
  | .obj fs => do
    let httpTests ← (match fs.lookup "http_tests" with
      | none => some []
      | some (.arr es) => unmarshalList unmarshalHTTPTest es
      | some _ => none)
    let speedTests ← (match fs.lookup "speed_tests" with
      | none => some []
      | some (.arr es) => unmarshalList unmarshalSpeedTest es
      | some _ => none)
    let vpnTest ← (match fs.lookup "vpn_test" with
      | none => some VPNTest.empty
      | some j => unmarshalVPNTest j)
    let pingTest ← (match fs.lookup "ping_test" with
      | none => some PingTest.empty
      | some j => unmarshalPingTest j)
    let timestamp ← decNatVal (fs.lookup "timestamp")
    pure ⟨httpTests, speedTests, vpnTest, pingTest, timestamp⟩
  | _ => none

/-! ## Result store (utils/results.go)

The file system is a map from paths to file contents.  A stored file either
parses as JSON or is corrupt (models `json.Unmarshal` failing on raw bytes).
The wall clock is threaded explicitly as `now : Nat`; `now ≠ 0` models the
fact that `time.Now()` is never Go's zero time. -/

/-- Contents of a stored results file. -/
inductive FileData where
  | wellFormed : Json → FileData
  | corrupt : String → FileData

/-- The file-system state: path → file contents. -/
abbrev FS := String → Option FileData

/-- Write (create or overwrite) the file at path `p`. -/
def FS.set (fs : FS) (p : String) (d : FileData) : FS :=
  fun q => if q = p then some d else fs q

/-- The error taxonomy of `utils/errors.go` as used by the result store. -/
inductive StoreError where
  | networkError : String → String → StoreError
  | parseError : String → String → StoreError
  | validationError : String → String → StoreError
deriving Repr, DecidableEq

/-- Model of `utils.LoadResults`: under the results mutex, read the file; a missing
file yields a freshly-timestamped empty report instead of an error; a file
that does not deserialize yields a parse error.  (Read errors other than
non-existence are not representable in this file-system model.) -/
def LoadResults (filePath : String) (fs : FS) (now : Nat) :
    Except StoreError TestResults :=
  match fs filePath with
  | none => .ok { TestResults.empty with timestamp := now }
  | some (.corrupt _) =>
      .error (.parseError "Storage" "failed to parse results JSON")
  | some (.wellFormed j) =>
      match unmarshalTestResults j with
      | some r => .ok r
      | none => .error (.parseError "Storage" "failed to parse results JSON")

/-- Model of `utils.SaveResults`: a nil report (`none`) is rejected by validation
before anything is written; otherwise, under the mutex, the timestamp is
assigned if unset, the report is serialized and written to the path.  The
returned report is the one serialized (Go mutates `*results` in place).
Marshalling cannot fail in this model: the only `json.Marshal` failure mode
for these types is a NaN/Inf float, which `Rat` excludes.  The permission
bits are accepted and passed to `os.WriteFile`; they affect no observable
state in this model (they only apply when the file is created). -/
def SaveResults (results : Option TestResults) (filePath : String)
    (perms : Nat) (now : Nat) (fs : FS) :
    Except StoreError TestResults × FS :=
  match results with
  | none => (.error (.validationError "Storage" "results cannot be nil"), fs)
  | some r =>
      let r' := if r.timestamp = 0 then { r with timestamp := now } else r
      (.ok r', fs.set filePath (.wellFormed (marshalTestResults r')))

/-- Model of `utils.AppendResult`: load the existing results (falling back to a fresh
empty report if loading fails), append the given HTTP and speed results when
non-empty, overwrite the VPN and ping slots when the given pointers are
non-nil, refresh the timestamp, and save. -/
def AppendResult (httpTests : List HTTPTest) (speedTests : List SpeedTest)
    (vpnTest : Option VPNTest) (pingTest : Option PingTest)
    (filePath : String) (perms : Nat) (now : Nat) (fs : FS) :
    Except StoreError TestResults × FS :=
  let results := match LoadResults filePath fs now with
    | .ok r => r
    | .error _ => { TestResults.empty with timestamp := now }
  let results := if 0 < httpTests.length then
    { results with httpTests := results.httpTests ++ httpTests } else results
  let results := if 0 < speedTests.length then
    { results with speedTests := results.speedTests ++ speedTests } else results
  let results := match vpnTest with
    | some v => { results with vpnTest := v }
    | none => results
  let results := match pingTest with
    | some p => { results with pingTest := p }
    | none => results
  let results := { results with timestamp := now }
  SaveResults (some results) filePath perms now fs

/-- Modelled from the spec (§4.3): the merge step of `append` — "sequences
concatenate; the single VPN/Ping slots are overwritten" by the given
records.  Stated over the loaded report; slots with no given record keep
their loaded value. -/
def mergeReports (loaded : TestResults) (httpTests : List HTTPTest)
    (speedTests : List SpeedTest) (vpnTest : Option VPNTest)
    (pingTest : Option PingTest) : TestResults :=
  { loaded with
    httpTests := loaded.httpTests ++ httpTests
    speedTests := loaded.speedTests ++ speedTests
    vpnTest := vpnTest.getD loaded.vpnTest
    pingTest := pingTest.getD loaded.pingTest }

/-- Modelled from the spec (§4.3): `append` read literally as the plain
composition of `load`, the merge, and `save`, with no other effect. -/
def appendViaComposition (httpTests : List HTTPTest)
    (speedTests : List SpeedTest) (vpnTest : Option VPNTest)
    (pingTest : Option PingTest) (filePath : String) (perms : Nat)
    (now : Nat) (fs : FS) : Except StoreError TestResults × FS :=
  match LoadResults filePath fs now with
  | .ok r =>
      SaveResults (some (mergeReports r httpTests speedTests vpnTest pingTest))
        filePath perms now fs
  | .error e => (.error e, fs)

/-! ## HTTP probe (modules/httpTest.go)

`TestHTTP` always returns a non-nil `*HTTPTest` with `URL` set; everything
the network decides is an explicit environment. -/

/-- The network environment one `TestHTTP` call observes: request-creation
error, transport error, response status line, protocol, optional TLS state
(version, cipher suite, server name), body-read error, body length. -/
structure HTTPEnv where
  newRequestError : Option String
  doError : Option String
  status : String
  proto : String
  tls : Option (Nat × Nat × String)
  readError : Option String
  bodyLen : Nat
deriving Repr, DecidableEq

/-- Model of `modules.TestHTTP`: mirrors the source control flow; every path returns
exactly one result and every path sets `url`. -/
def testHTTP (url : String) (env : HTTPEnv) : HTTPTest :=
  let result : HTTPTest := { HTTPTest.empty with url := url }
  match env.newRequestError with
  | some e => { result with error := e }
  | none =>
    match env.doError with
    | some e => { result with error := e }
    | none =>
      let result := { result with status := env.status, proto := env.proto }
      let result := match env.tls with
        | some (v, cs, sn) =>
            { result with tlsVersion := toString v, cipherSuite := toString cs,
                          serverName := sn }
        | none => result
      match env.readError with
      | some e => { result with error := e }
      | none => { result with responseLength := (env.bodyLen : Int) }

/-! ## Orchestrator fan-in (main.go, runAllTests)

Each goroutine computes its probe result outside the lock and then, holding
the single mutex, merges it into the shared collections.  A completed pass
is a `foldl` of these critical sections over the completion order, which is
some permutation of the launched task list. -/

/-- The value a finished task hands to its critical section. -/
inductive TaskResult where
  | http : HTTPTest → TaskResult
  | speed : SpeedTest → TaskResult
  | vpn : VPNTest → TaskResult
  | ping : PingTest → TaskResult
deriving Repr, DecidableEq

/-- The shared collections of `runAllTests` (`httpTests`, `speedTests`,
`vpnTest`, `pingTest` behind `mu`). -/
structure OrchState where
  httpTests : List HTTPTest
  speedTests : List SpeedTest
  vpnTest : Option VPNTest
  pingTest : Option PingTest
deriving Repr, DecidableEq

/-- The empty collections at pass start. -/
def OrchState.init : OrchState := ⟨[], [], none, none⟩

/-- One task's critical section: HTTP and speed results are appended;
the VPN result is stored (single task); a ping result is stored only if the
slot is still nil — `if pingTest == nil { pingTest = result }`. -/
def applyTask (s : OrchState) : TaskResult → OrchState
  | .http r => { s with httpTests := s.httpTests ++ [r] }
  | .speed r => { s with speedTests := s.speedTests ++ [r] }
  | .vpn r => { s with vpnTest := some r }
  | .ping r => { s with pingTest := if s.pingTest.isNone then some r else s.pingTest }

/-- The tasks `runAllTests` launches: one HTTP task per URL, one speed task
per URL, one VPN task, one ping task per domain, each carrying the result
its probe call produces.  (`TestHTTP`, `CheckSpeed`, `CheckVPN`, `PingCheck`
all return non-nil pointers, so every task appends exactly one result.) -/
def launchedTasks (httpProbe : String → HTTPTest) (speedProbe : String → SpeedTest)
    (vpnResult : VPNTest) (pingProbe : String → PingTest)
    (httpURLs speedURLs pingDomains : List String) : List TaskResult :=
  httpURLs.map (fun u => .http (httpProbe u)) ++
  speedURLs.map (fun u => .speed (speedProbe u)) ++
  [.vpn vpnResult] ++
  pingDomains.map (fun d => .ping (pingProbe d))

/-- After the join, `runAllTests` copies the collections into a
`TestResults` (the nil-filter on the pointer slices drops nothing, since the
probes never return nil); `VPNTest`/`PingTest` stay at their zero values
when no result was stored; the timestamp is left unset for `SaveResults`. -/
def buildReport (s : OrchState) : TestResults :=
  { httpTests := s.httpTests
    speedTests := s.speedTests
    vpnTest := s.vpnTest.getD VPNTest.empty
    pingTest := s.pingTest.getD PingTest.empty
    timestamp := 0 }

/-- Project the HTTP payload out of a task. -/
def TaskResult.getHttp : TaskResult → Option HTTPTest
  | .http r => some r
  | _ => none

/-- Project the ping payload out of a task. -/
def TaskResult.getPing : TaskResult → Option PingTest
  | .ping r => some r
  | _ => none

/-! ## Ping probe (modules/checkVPN.go, PingCheck)

The per-session statistics (`PacketsSent`, `PacketsRecv`) accumulate inside
the `go-ping` library, which is not part of this repository; the session
state machine is modelled from the spec (§4.2): `send` transmits one packet,
the first echo reply for a transmitted sequence number is a `recv` event
(increments `received`), any further reply for an already-received sequence
number is a `dupRecv` event, and `finish` terminates the session.  The
`OnDuplicateRecv` handler in the source only logs, leaving the session
unchanged. -/

/-- An event of a ping session. -/
inductive PingEvent where
  | send : PingEvent
  | recv : Nat → PingEvent
  | dupRecv : Nat → PingEvent
  | finish : PingEvent
deriving Repr, DecidableEq

/-- The transient per-invocation session record. -/
structure PingSession where
  transmitted : Nat
  received : Nat
  seqsReceived : List Nat
deriving Repr, DecidableEq

/-- A fresh session: counters at zero. -/
def pingInit : PingSession := ⟨0, 0, []⟩

/-- One session transition.  `recv` increments `received` and records the
sequence number; `dupRecv` only logs (the record is unchanged); `finish`
changes no counter (it copies them out). -/
def pingStep (s : PingSession) : PingEvent → PingSession
  | .send => { s with transmitted := s.transmitted + 1 }
  | .recv seq =>
      { s with received := s.received + 1, seqsReceived := seq :: s.seqsReceived }
  | .dupRecv _ => s
  | .finish => s

/-- Run a whole event trace. -/
def runTrace (s : PingSession) (tr : List PingEvent) : PingSession :=
  tr.foldl pingStep s

/-- Which events the ICMP layer can deliver in a given session state: a
`recv` carries the sequence number of an already-transmitted, not yet
received packet; a `dupRecv` repeats an already-received sequence number. -/
def ValidEvent (s : PingSession) : PingEvent → Prop
  | .send => True
  | .recv seq => seq < s.transmitted ∧ seq ∉ s.seqsReceived
  | .dupRecv seq => seq ∈ s.seqsReceived
  | .finish => True

/-- A trace each of whose events is deliverable in the state it meets. -/
def ValidTrace : PingSession → List PingEvent → Prop
  | _, [] => True
  | s, e :: es => ValidEvent s e ∧ ValidTrace (pingStep s e) es

instance instDecValidEvent (s : PingSession) (e : PingEvent) :
    Decidable (ValidEvent s e) := by
  cases e <;> simp [ValidEvent] <;> infer_instance

instance instDecValidTrace :
    (s : PingSession) → (tr : List PingEvent) → Decidable (ValidTrace s tr)
  | _, [] => .isTrue trivial
  | s, e :: es =>
      have : Decidable (ValidTrace (pingStep s e) es) := instDecValidTrace _ es
      inferInstanceAs (Decidable (_ ∧ _))

/-- The packet-loss percentage reported by the ICMP layer:
`(transmitted - received) / transmitted * 100`. -/
def lossOf (s : PingSession) : Rat :=
  ((s.transmitted : Rat) - (s.received : Rat)) / (s.transmitted : Rat) * 100

/-- What the environment decides for one `PingCheck` call: whether
`ping.NewPinger` fails, whether `pinger.Run` fails, and otherwise the event
trace of the echo sequence. -/
structure PingEnv where
  ctorError : Option String
  runError : Option String
  trace : List PingEvent
deriving Repr, DecidableEq

/-- Model of `modules.PingCheck`: the result starts as `{URL: domain}`; a
`ping.NewPinger` failure short-circuits with only the error added; a
`pinger.Run` failure likewise returns with the error set and the statistics
fields at their zero defaults (spec §4.2); otherwise `OnFinish` copies the
final transmitted, received and loss statistics into the result. -/
def pingCheck (domain : String) (env : PingEnv) : PingTest :=
  let result : PingTest := { PingTest.empty with url := domain }
  match env.ctorError with
  | some e => { result with error := e }
  | none =>
    match env.runError with
    | some e => { result with error := e }
    | none =>
      let s := runTrace pingInit env.trace
      { result with transmitted := (s.transmitted : Int),
                    received := (s.received : Int), loss := lossOf s }

/-! ## Serialization round trip -/

theorem lookup_append (k : String) (l1 l2 : List (String × Json)) :
    (l1 ++ l2).lookup k = (l1.lookup k).or (l2.lookup k) := by
  induction l1 with
  | nil => simp
  | cons p es ih =>
    obtain ⟨k', v⟩ := p
    rw [List.cons_append, List.lookup_cons, List.lookup_cons]
    cases k == k' <;> simp [ih]

theorem lookup_strField_self (k v : String) :
    (strField k v).lookup k = some (.str v) := by
  simp [strField, List.lookup_cons]

theorem lookup_strField_ne (k k' v : String) (h : (k == k') = false) :
    (strField k' v).lookup k = none := by
  simp [strField, List.lookup_cons, h]

theorem lookup_omitStr_self (k v : String) :
    (omitStr k v).lookup k = if v = "" then none else some (.str v) := by
  unfold omitStr; split <;> simp [List.lookup_cons]

theorem lookup_omitStr_ne (k k' v : String) (h : (k == k') = false) :
    (omitStr k' v).lookup k = none := by
  unfold omitStr; split <;> simp [List.lookup_cons, h]

theorem lookup_intField_self (k : String) (v : Int) :
    (intField k v).lookup k = some (.num (v : Rat)) := by
  simp [intField, List.lookup_cons]

theorem lookup_intField_ne (k k' : String) (v : Int) (h : (k == k') = false) :
    (intField k' v).lookup k = none := by
  simp [intField, List.lookup_cons, h]

theorem lookup_omitInt_self (k : String) (v : Int) :
    (omitInt k v).lookup k = if v = 0 then none else some (.num (v : Rat)) := by
  unfold omitInt; split <;> simp [List.lookup_cons]

theorem lookup_omitInt_ne (k k' : String) (v : Int) (h : (k == k') = false) :
    (omitInt k' v).lookup k = none := by
  unfold omitInt; split <;> simp [List.lookup_cons, h]

theorem lookup_ratField_self (k : String) (v : Rat) :
    (ratField k v).lookup k = some (.num v) := by
  simp [ratField, List.lookup_cons]

theorem lookup_ratField_ne (k k' : String) (v : Rat) (h : (k == k') = false) :
    (ratField k' v).lookup k = none := by
  simp [ratField, List.lookup_cons, h]

theorem lookup_omitRat_self (k : String) (v : Rat) :
    (omitRat k v).lookup k = if v = 0 then none else some (.num v) := by
  unfold omitRat; split <;> simp [List.lookup_cons]

theorem lookup_omitRat_ne (k k' : String) (v : Rat) (h : (k == k') = false) :
    (omitRat k' v).lookup k = none := by
  unfold omitRat; split <;> simp [List.lookup_cons, h]

theorem lookup_single_self (k : String) (j : Json) :
    List.lookup k [(k, j)] = some j := by
  simp [List.lookup_cons]

theorem lookup_single_ne (k k' : String) (j : Json) (h : (k == k') = false) :
    List.lookup k [(k', j)] = none := by
  simp [List.lookup_cons, h]

theorem decStrVal_str (s : String) : decStrVal (some (.str s)) = some s := rfl

theorem decStrVal_omit (v : String) :
    decStrVal (if v = "" then none else some (.str v)) = some v := by
  split <;> simp [decStrVal, *]

theorem decIntVal_int (v : Int) : decIntVal (some (.num (v : Rat))) = some v := by
  simp [decIntVal]

theorem decIntVal_omit (v : Int) :
    decIntVal (if v = 0 then none else some (.num (v : Rat))) = some v := by
  split <;> simp [decIntVal, *]

theorem decRatVal_num (q : Rat) : decRatVal (some (.num q)) = some q := rfl

theorem decRatVal_omit (q : Rat) :
    decRatVal (if q = 0 then none else some (.num q)) = some q := by
  split <;> simp [decRatVal, *]

theorem decNatVal_num (n : Nat) : decNatVal (some (.num (n : Rat))) = some n := by
  simp [decNatVal]

theorem unmarshal_marshalHTTPTest (h : HTTPTest) :
    unmarshalHTTPTest (marshalHTTPTest h) = some h := by
  simp +decide [marshalHTTPTest, unmarshalHTTPTest, lookup_append,
    lookup_strField_self, lookup_strField_ne, lookup_omitStr_self,
    lookup_omitStr_ne, lookup_omitInt_self, lookup_omitInt_ne,
    Option.or_none, decStrVal_str, decStrVal_omit, decIntVal_omit]

theorem unmarshal_marshalSpeedTest (s : SpeedTest) :
    unmarshalSpeedTest (marshalSpeedTest s) = some s := by
  simp +decide [marshalSpeedTest, unmarshalSpeedTest, lookup_append,
    lookup_strField_self, lookup_strField_ne, lookup_ratField_self,
    lookup_ratField_ne, lookup_intField_self, lookup_intField_ne,
    lookup_omitStr_self, lookup_omitStr_ne, Option.or_none, decStrVal_str,
    decStrVal_omit, decIntVal_int, decRatVal_num]

theorem unmarshal_marshalVPNTest (v : VPNTest) :
    unmarshalVPNTest (marshalVPNTest v) = some v := by
  simp +decide [marshalVPNTest, unmarshalVPNTest, lookup_append,
    lookup_strField_self, lookup_strField_ne, lookup_omitStr_self,
    lookup_omitStr_ne, Option.or_none, decStrVal_str, decStrVal_omit]

theorem unmarshal_marshalPingTest (p : PingTest) :
    unmarshalPingTest (marshalPingTest p) = some p := by
  simp +decide [marshalPingTest, unmarshalPingTest, lookup_append,
    lookup_omitStr_self, lookup_omitStr_ne, lookup_omitInt_self,
    lookup_omitInt_ne, lookup_omitRat_self, lookup_omitRat_ne,
    Option.or_none, decStrVal_omit, decIntVal_omit, decRatVal_omit]

theorem lookup_cons_self (k : String) (j : Json) (rest : List (String × Json)) :
    List.lookup k ((k, j) :: rest) = some j := by
  simp [List.lookup_cons]

theorem lookup_cons_ne (k k' : String) (j : Json) (rest : List (String × Json))
    (h : (k == k') = false) :
    List.lookup k ((k', j) :: rest) = List.lookup k rest := by
  simp [List.lookup_cons, h]

theorem unmarshalList_marshalHTTPTest (l : List HTTPTest) :
    unmarshalList unmarshalHTTPTest (l.map marshalHTTPTest) = some l := by
  induction l with
  | nil => rfl
  | cons x xs ih => simp [unmarshalList, unmarshal_marshalHTTPTest, ih]

theorem unmarshalList_marshalSpeedTest (l : List SpeedTest) :
    unmarshalList unmarshalSpeedTest (l.map marshalSpeedTest) = some l := by
  induction l with
  | nil => rfl
  | cons x xs ih => simp [unmarshalList, unmarshal_marshalSpeedTest, ih]

theorem unmarshal_marshalTestResults (r : TestResults) :
    unmarshalTestResults (marshalTestResults r) = some r := by
  obtain ⟨ht, st, vt, pt, ts⟩ := r
  by_cases hh : ht = [] <;> by_cases hs : st = [] <;>
    (try subst hh) <;> (try subst hs) <;>
    simp +decide [marshalTestResults, unmarshalTestResults, *,
      lookup_append, lookup_single_self, lookup_single_ne, lookup_cons_self,
      lookup_cons_ne, Option.or_none, unmarshalList_marshalHTTPTest,
      unmarshalList_marshalSpeedTest, unmarshal_marshalVPNTest,
      unmarshal_marshalPingTest, decNatVal_num]

/-! ## Orchestrator fan-in lemmas -/

theorem foldl_applyTask_httpTests (order : List TaskResult) (s : OrchState) :
    (order.foldl applyTask s).httpTests =
      s.httpTests ++ order.filterMap TaskResult.getHttp := by
  induction order generalizing s with
  | nil => simp
  | cons t ts ih =>
    cases t <;> simp [applyTask, TaskResult.getHttp, ih]

theorem foldl_applyTask_pingTest (order : List TaskResult) (s : OrchState) :
    (order.foldl applyTask s).pingTest =
      s.pingTest.or (order.filterMap TaskResult.getPing).head? := by
  induction order generalizing s with
  | nil => simp
  | cons t ts ih =>
    cases t with
    | ping r => cases hsp : s.pingTest <;> simp [applyTask, TaskResult.getPing, ih, hsp]
    | http r => simp [applyTask, TaskResult.getPing, ih]
    | speed r => simp [applyTask, TaskResult.getPing, ih]
    | vpn r => simp [applyTask, TaskResult.getPing, ih]

theorem filterMap_fn_none (l : List α) :
    l.filterMap (fun _ => (none : Option β)) = [] := by
  induction l <;> simp [*]

theorem filterMap_fn_some (f : α → β) (l : List α) :
    l.filterMap (fun x => some (f x)) = l.map f := by
  induction l <;> simp [*]

theorem filterMap_getHttp_launchedTasks (httpProbe : String → HTTPTest)
    (speedProbe : String → SpeedTest) (vpnResult : VPNTest)
    (pingProbe : String → PingTest) (httpURLs speedURLs pingDomains : List String) :
    (launchedTasks httpProbe speedProbe vpnResult pingProbe
        httpURLs speedURLs pingDomains).filterMap TaskResult.getHttp =
      httpURLs.map httpProbe := by
  simp [launchedTasks, List.filterMap_map, TaskResult.getHttp, Function.comp_def,
    filterMap_fn_none, filterMap_fn_some]

theorem filterMap_getPing_launchedTasks (httpProbe : String → HTTPTest)
    (speedProbe : String → SpeedTest) (vpnResult : VPNTest)
    (pingProbe : String → PingTest) (httpURLs speedURLs pingDomains : List String) :
    (launchedTasks httpProbe speedProbe vpnResult pingProbe
        httpURLs speedURLs pingDomains).filterMap TaskResult.getPing =
      pingDomains.map pingProbe := by
  simp [launchedTasks, List.filterMap_map, TaskResult.getPing, Function.comp_def,
    filterMap_fn_none, filterMap_fn_some]

/-! ## Ping session invariant -/

/-- The session invariant: `received` counts the distinct sequence numbers
received so far, all of which index transmitted packets. -/
def PingInv (s : PingSession) : Prop :=
  s.received = s.seqsReceived.length ∧ s.seqsReceived.Nodup ∧
    ∀ q ∈ s.seqsReceived, q < s.transmitted

theorem pingInv_init : PingInv pingInit := by
  simp [PingInv, pingInit]

theorem pingInv_step (s : PingSession) (e : PingEvent) (hInv : PingInv s)
    (hEv : ValidEvent s e) : PingInv (pingStep s e) := by
  obtain ⟨h1, h2, h3⟩ := hInv
  cases e with
  | send =>
    exact ⟨h1, h2, fun q hq => Nat.lt_succ_of_lt (h3 q hq)⟩
  | recv seq =>
    obtain ⟨hlt, hnot⟩ := hEv
    refine ⟨by simp [pingStep, h1], ?_, ?_⟩
    · simpa [pingStep, List.nodup_cons] using ⟨hnot, h2⟩
    · intro q hq
      rcases (by simpa [pingStep] using hq : q = seq ∨ q ∈ s.seqsReceived) with h | h
      · simpa [pingStep, h] using hlt
      · simpa [pingStep] using h3 q h
  | dupRecv seq => exact ⟨h1, h2, h3⟩
  | finish => exact ⟨h1, h2, h3⟩

theorem pingInv_received_le (s : PingSession) (hInv : PingInv s) :
    s.received ≤ s.transmitted := by
  obtain ⟨h1, h2, h3⟩ := hInv
  rw [h1, ← List.toFinset_card_of_nodup h2]
  have hsub : s.seqsReceived.toFinset ⊆ Finset.range s.transmitted := by
    intro q hq
    rw [List.mem_toFinset] at hq
    exact Finset.mem_range.mpr (h3 q hq)
  simpa [Finset.card_range] using Finset.card_le_card hsub

theorem runTrace_inv (tr : List PingEvent) (s : PingSession) (hInv : PingInv s)
    (hTr : ValidTrace s tr) : PingInv (runTrace s tr) := by
  induction tr generalizing s with
  | nil => exact hInv
  | cons e es ih =>
    exact ih (pingStep s e) (pingInv_step s e hInv hTr.1) hTr.2

/-! ## Remaining helpers -/

/-- The top-level field names of a serialized document. -/
def jsonKeys : Json → List String
  | .obj l => l.map Prod.fst
  | _ => []

instance instDecEqExcept {ε α : Type} [DecidableEq ε] [DecidableEq α] :
    DecidableEq (Except ε α)
  | .ok a, .ok b =>
      if h : a = b then .isTrue (by rw [h]) else .isFalse (by simp [h])
  | .error a, .error b =>
      if h : a = b then .isTrue (by rw [h]) else .isFalse (by simp [h])
  | .ok _, .error _ => .isFalse (by simp)
  | .error _, .ok _ => .isFalse (by simp)

/-! ## Claim theorems -/

/-- Claim C1: for every list of HTTP target URLs, the report of an
orchestration pass contains exactly one `HTTPTest` result per launched
target — no duplicates and no drops, regardless of the completion order of
the concurrent tasks: the collected HTTP results are a permutation of the
per-target probe results, so `len(report.http_tests) = len(http_targets)`. -/
theorem orchestrator_http_exactly_one_per_target
    (httpEnv : String → HTTPEnv) (speedProbe : String → SpeedTest)
    (vpnResult : VPNTest) (pingProbe : String → PingTest)
    (httpURLs speedURLs pingDomains : List String) (order : List TaskResult)
    (horder : order.Perm (launchedTasks (fun u => testHTTP u (httpEnv u))
      speedProbe vpnResult pingProbe httpURLs speedURLs pingDomains)) :
    (buildReport (order.foldl applyTask OrchState.init)).httpTests.Perm
      (httpURLs.map (fun u => testHTTP u (httpEnv u))) ∧
    (buildReport (order.foldl applyTask OrchState.init)).httpTests.length
      = httpURLs.length := by
  have hfm : (order.filterMap TaskResult.getHttp).Perm
      (httpURLs.map (fun u => testHTTP u (httpEnv u))) := by
    have h := horder.filterMap TaskResult.getHttp
    rwa [filterMap_getHttp_launchedTasks] at h
  constructor
  · simpa [buildReport, foldl_applyTask_httpTests, OrchState.init] using hfm
  · simpa [buildReport, foldl_applyTask_httpTests, OrchState.init] using
      hfm.length_eq.trans (List.length_map httpURLs _)

/-- A fixed network environment for the C1 witness run. -/
def wHttpEnv : String → HTTPEnv :=
  fun _ => ⟨none, none, "200 OK", "HTTP/1.1", none, none, 5⟩

/-- A fixed speed probe for the witness runs. -/
def wSpeedProbe : String → SpeedTest := fun u => { SpeedTest.empty with url := u }

/-- A fixed ping probe for the witness runs. -/
def wPingProbe : String → PingTest := fun d => { PingTest.empty with url := d }

/-- A concrete completion order: the launch order reversed. -/
def wOrder : List TaskResult :=
  (launchedTasks (fun u => testHTTP u (wHttpEnv u)) wSpeedProbe VPNTest.empty
    wPingProbe ["http://a/", "http://b/"] ["http://s/"] ["d.example"]).reverse

theorem orchestrator_http_exactly_one_per_target_witness :
    (buildReport (wOrder.foldl applyTask OrchState.init)).httpTests.Perm
      (["http://a/", "http://b/"].map (fun u => testHTTP u (wHttpEnv u))) ∧
    (buildReport (wOrder.foldl applyTask OrchState.init)).httpTests.length
      = (["http://a/", "http://b/"] : List String).length :=
  orchestrator_http_exactly_one_per_target wHttpEnv wSpeedProbe VPNTest.empty
    wPingProbe ["http://a/", "http://b/"] ["http://s/"] ["d.example"] wOrder
    (List.reverse_perm _)

/-- Claim C2: `SaveResults` followed immediately by `LoadResults` on the
same path returns a report equal to the one saved. -/
theorem saveResults_loadResults_roundtrip (r : TestResults) (p : String)
    (perms now now2 : Nat) (fs : FS) :
    ∃ r', (SaveResults (some r) p perms now fs).1 = .ok r' ∧
      LoadResults p (SaveResults (some r) p perms now fs).2 now2 = .ok r' := by
  refine ⟨if r.timestamp = 0 then { r with timestamp := now } else r, rfl, ?_⟩
  simp [SaveResults, LoadResults, FS.set, unmarshal_marshalTestResults]

/-- Claim C3 (counterexample): serializing the zero-valued report emits the
`vpn_test` and `ping_test` fields even though both records hold their
empty/default values, so these fields are not omitted as claimed. -/
theorem marshal_vpn_ping_present_for_empty_report :
    TestResults.empty.vpnTest = VPNTest.empty ∧
    TestResults.empty.pingTest = PingTest.empty ∧
    "vpn_test" ∈ jsonKeys (marshalTestResults TestResults.empty) ∧
    "ping_test" ∈ jsonKeys (marshalTestResults TestResults.empty) := by
  refine ⟨rfl, rfl, ?_, ?_⟩ <;> decide

/-- Claim C3 (amended): in the serialized report, `http_tests` and
`speed_tests` are present exactly when non-empty and `timestamp` is always
present, but `vpn_test` and `ping_test` are always present as well —
`encoding/json` never omits struct-typed fields, so their `omitempty` tags
have no effect. -/
theorem marshal_field_presence (r : TestResults) :
    ("http_tests" ∈ jsonKeys (marshalTestResults r) ↔ r.httpTests ≠ []) ∧
    ("speed_tests" ∈ jsonKeys (marshalTestResults r) ↔ r.speedTests ≠ []) ∧
    "vpn_test" ∈ jsonKeys (marshalTestResults r) ∧
    "ping_test" ∈ jsonKeys (marshalTestResults r) ∧
    "timestamp" ∈ jsonKeys (marshalTestResults r) := by
  by_cases hh : r.httpTests = [] <;> by_cases hs : r.speedTests = [] <;>
    simp +decide [marshalTestResults, jsonKeys, hh, hs]

/-- The previously stored report for the C4 scenario: saved earlier, so its
timestamp (5) is non-zero. -/
def c4Stored : TestResults := { TestResults.empty with timestamp := 5 }

/-- A file system holding the serialized `c4Stored` at `data.json`. -/
def c4FS : FS :=
  FS.set (fun _ => none) "data.json" (.wellFormed (marshalTestResults c4Stored))

/-- Claim C4 (counterexample): `AppendResult` is not the plain composition
of load, the spec merge, and save: on a stored report with timestamp 5 and
call time 7 it saves timestamp 7, while the composition would preserve 5
(save only assigns a timestamp when unset). -/
theorem appendResult_ne_load_merge_save :
    (AppendResult [] [] none none "data.json" 420 7 c4FS).1 ≠
      (appendViaComposition [] [] none none "data.json" 420 7 c4FS).1 ∧
    (AppendResult [] [] none none "data.json" 420 7 c4FS).1 =
      .ok { TestResults.empty with timestamp := 7 } ∧
    (appendViaComposition [] [] none none "data.json" 420 7 c4FS).1 =
      .ok { TestResults.empty with timestamp := 5 } := by
  refine ⟨?_, by decide, by decide⟩
  decide

/-- Claim C4 (amended): whenever loading succeeds, `AppendResult` equals
the composition of `LoadResults`, the spec merge (sequences concatenate,
given VPN/Ping records overwrite the slots), a refresh of the timestamp to
the call time, and `SaveResults`. -/
theorem appendResult_eq_load_merge_refresh_save
    (http : List HTTPTest) (speed : List SpeedTest) (vpn : Option VPNTest)
    (ping : Option PingTest) (p : String) (perms now : Nat) (fs : FS)
    (r : TestResults) (hload : LoadResults p fs now = .ok r) :
    AppendResult http speed vpn ping p perms now fs =
      SaveResults
        (some { mergeReports r http speed vpn ping with timestamp := now })
        p perms now fs := by
  unfold AppendResult
  rw [hload]
  cases http <;> cases speed <;> cases vpn <;> cases ping <;>
    simp [mergeReports]

theorem appendResult_eq_load_merge_refresh_save_witness :
    AppendResult [] [] none none "data.json" 420 7 c4FS =
      SaveResults (some { mergeReports c4Stored [] [] none none with timestamp := 7 })
        "data.json" 420 7 c4FS :=
  appendResult_eq_load_merge_refresh_save [] [] none none "data.json" 420 7
    c4FS c4Stored (by decide)

/-- Claim C5: loading from a path where no file exists returns, without any
error, a report whose HTTP, speed, VPN and ping collections are all empty
and whose timestamp is freshly assigned and non-zero. -/
theorem loadResults_missing_file (p : String) (fs : FS) (now : Nat)
    (hmiss : fs p = none) (hnow : now ≠ 0) :
    ∃ res, LoadResults p fs now = .ok res ∧ res.httpTests = [] ∧
      res.speedTests = [] ∧ res.vpnTest = VPNTest.empty ∧
      res.pingTest = PingTest.empty ∧ res.timestamp ≠ 0 := by
  refine ⟨{ TestResults.empty with timestamp := now }, ?_, rfl, rfl, rfl, rfl, hnow⟩
  simp [LoadResults, hmiss]

theorem loadResults_missing_file_witness :
    ∃ res, LoadResults "data.json" (fun _ => none) 1 = .ok res ∧
      res.httpTests = [] ∧ res.speedTests = [] ∧ res.vpnTest = VPNTest.empty ∧
      res.pingTest = PingTest.empty ∧ res.timestamp ≠ 0 :=
  loadResults_missing_file "data.json" (fun _ => none) 1 rfl (by decide)

/-- Claim C6: a duplicate-receive event leaves the ping session record
unchanged, and over any valid event trace the received count never exceeds
the transmitted count in the final result `PingCheck` reports. -/
theorem ping_duplicate_noop_and_received_le_transmitted
    (s : PingSession) (q : Nat) (d : String) (tr : List PingEvent)
    (hvalid : ValidTrace pingInit tr) :
    pingStep s (.dupRecv q) = s ∧
    (pingCheck d ⟨none, none, tr⟩).received ≤
      (pingCheck d ⟨none, none, tr⟩).transmitted := by
  refine ⟨rfl, ?_⟩
  have hinv := runTrace_inv tr pingInit pingInv_init hvalid
  have hle := pingInv_received_le _ hinv
  simp only [pingCheck]
  exact_mod_cast hle

theorem ping_duplicate_noop_and_received_le_transmitted_witness :
    pingStep pingInit (.dupRecv 3) = pingInit ∧
    (pingCheck "www.google.com"
        ⟨none, none, [.send, .send, .recv 0, .dupRecv 0, .recv 1, .finish]⟩).received ≤
      (pingCheck "www.google.com"
        ⟨none, none, [.send, .send, .recv 0, .dupRecv 0, .recv 1, .finish]⟩).transmitted :=
  ping_duplicate_noop_and_received_le_transmitted pingInit 3 "www.google.com"
    [.send, .send, .recv 0, .dupRecv 0, .recv 1, .finish] (by decide)

/-- Claim C7 (counterexample): on probe-construction failure `PingCheck`
does not return a result with only the error field set: the URL field is
set to the probed domain as well. -/
theorem pingCheck_ctor_failure_url_set :
    (pingCheck "bad..host" ⟨some "lookup bad..host: no such host", none, []⟩).error
        = "lookup bad..host: no such host" ∧
    pingCheck "bad..host" ⟨some "lookup bad..host: no such host", none, []⟩ ≠
      { PingTest.empty with error := "lookup bad..host: no such host" } := by
  refine ⟨rfl, ?_⟩
  decide

/-- Claim C7 (amended): on probe-construction failure, and likewise on a
run-time failure of the echo sequence, `PingCheck` short-circuits to a
result carrying only the target URL and the error, with `Transmitted`,
`Received` and `Loss` left at their zero defaults. -/
theorem pingCheck_failure_zero_stats (d : String) (env : PingEnv) (e : String)
    (h : env.ctorError = some e ∨ (env.ctorError = none ∧ env.runError = some e)) :
    pingCheck d env =
      { url := d, transmitted := 0, received := 0, loss := 0, error := e } := by
  rcases h with h | ⟨h1, h2⟩
  · simp [pingCheck, h, PingTest.empty]
  · simp [pingCheck, h1, h2, PingTest.empty]

theorem pingCheck_failure_zero_stats_witness :
    pingCheck "bad..host" ⟨some "no such host", none, []⟩ =
      { url := "bad..host", transmitted := 0, received := 0, loss := 0,
        error := "no such host" } :=
  pingCheck_failure_zero_stats "bad..host" ⟨some "no such host", none, []⟩
    "no such host" (Or.inl rfl)

/-- Claim C8: saving a nil report is rejected with a validation error before
anything is serialized or written, leaving the file system unchanged. -/
theorem saveResults_nil_rejected (p : String) (perms now : Nat) (fs : FS) :
    (SaveResults none p perms now fs).1 =
      .error (.validationError "Storage" "results cannot be nil") ∧
    (SaveResults none p perms now fs).2 = fs :=
  ⟨rfl, rfl⟩

/-- Claim C9: `SaveResults` assigns the timestamp exactly when it is unset
(zero) and passes a non-zero timestamp through unchanged; it modifies no
other field, and the file it writes holds exactly the report it returns. -/
theorem saveResults_timestamp_frame (r : TestResults) (p : String)
    (perms now : Nat) (fs : FS) :
    ∃ r', (SaveResults (some r) p perms now fs).1 = .ok r' ∧
      r'.timestamp = (if r.timestamp = 0 then now else r.timestamp) ∧
      r'.httpTests = r.httpTests ∧ r'.speedTests = r.speedTests ∧
      r'.vpnTest = r.vpnTest ∧ r'.pingTest = r.pingTest ∧
      (SaveResults (some r) p perms now fs).2 p =
        some (.wellFormed (marshalTestResults r')) := by
  by_cases h : r.timestamp = 0
  · exact ⟨{ r with timestamp := now }, by simp [SaveResults, h], by simp [h],
      rfl, rfl, rfl, rfl, by simp [SaveResults, FS.set, h]⟩
  · exact ⟨r, by simp [SaveResults, h], by simp [h], rfl, rfl, rfl, rfl,
      by simp [SaveResults, FS.set, h]⟩

/-- Claim C10: the report keeps at most one ping result even though one ping
task is launched per configured domain: the first ping task to run its
critical section wins and every later-completing ping task's result is
discarded rather than merged or appended. -/
theorem ping_slot_first_writer_wins
    (httpProbe : String → HTTPTest) (speedProbe : String → SpeedTest)
    (vpnResult : VPNTest) (pingProbe : String → PingTest)
    (httpURLs speedURLs pingDomains : List String) (order : List TaskResult)
    (horder : order.Perm (launchedTasks httpProbe speedProbe vpnResult
      pingProbe httpURLs speedURLs pingDomains)) :
    (order.foldl applyTask OrchState.init).pingTest =
      (order.filterMap TaskResult.getPing).head? ∧
    (order.filterMap TaskResult.getPing).length = pingDomains.length := by
  constructor
  · simp [foldl_applyTask_pingTest, OrchState.init]
  · have h := horder.filterMap TaskResult.getPing
    rw [filterMap_getPing_launchedTasks] at h
    exact h.length_eq.trans (List.length_map pingDomains _)

/-- A concrete completion order for the C10 witness: two ping tasks, with
the whole launch order reversed so the second-launched ping task completes
first. -/
def wOrderPing : List TaskResult :=
  (launchedTasks (fun u => { HTTPTest.empty with url := u }) wSpeedProbe
    VPNTest.empty wPingProbe ["http://a/"] ["http://s/"]
    ["d1.example", "d2.example"]).reverse

theorem ping_slot_first_writer_wins_witness :
    (wOrderPing.foldl applyTask OrchState.init).pingTest =
      (wOrderPing.filterMap TaskResult.getPing).head? ∧
    (wOrderPing.filterMap TaskResult.getPing).length =
      (["d1.example", "d2.example"] : List String).length :=
  ping_slot_first_writer_wins (fun u => { HTTPTest.empty with url := u })
    wSpeedProbe VPNTest.empty wPingProbe ["http://a/"] ["http://s/"]
    ["d1.example", "d2.example"] wOrderPing (List.reverse_perm _)

end UIT
